import Mathlib

/-!
Verification of the embroidery-mesh renderer (`create_mesh.py`).

The Python source is shallowly embedded below.  Conventions:

* Configuration values that can appear as coordinates are modelled by `Val`:
  either a Python `int` (`Val.vint`) or a non-integer value such as a string
  (`Val.vstr`).  Python's `int(v)` coercion is `pyIntCoerce` (an integer
  parses, a non-numeric string fails); arithmetic or `max` on a non-integer
  raises `TypeError`, modelled by `Except PyErr`.

* Pixel coordinates are stored in half-pixel units (the exact pixel value
  multiplied by 2).  The only fractional pixel quantity in the source is
  `cell_size / 2`, so every coordinate is an exact multiple of one half and
  the doubled values are exact integers; the float arithmetic of the source
  is exact on these dyadic values.  Integer-valued pixel quantities (grid
  boundaries, erase rectangles) therefore appear doubled as well.

* The knot radius `int(cell_size * 0.48)` is modelled as the exact rational
  truncation `Int.tdiv (cell_size * 48) 100`.  For the positive cell sizes
  accepted by the interface this agrees with the float computation: the
  nearest double to 0.48 is below 12/25 by less than 2^-54 relative error,
  which is too small to move the product across an integer boundary.

* A drawing primitive call is recorded as a `DrawOp`; the renderer output is
  the ordered list of draw calls plus the planned dimensions, or a `PyErr`
  when the Python code would raise.
-/

instance {ε α : Type} [DecidableEq ε] [DecidableEq α] : DecidableEq (Except ε α) := fun a b =>
  match a, b with
  | .ok x, .ok y => if h : x = y then .isTrue (by rw [h]) else .isFalse (by simp [h])
  | .error x, .error y => if h : x = y then .isTrue (by rw [h]) else .isFalse (by simp [h])
  | .ok _, .error _ => .isFalse (by simp)
  | .error _, .ok _ => .isFalse (by simp)

/-- A configuration scalar: a Python int, or a non-integer value (string). -/
inductive Val where
  | vint (n : Int)
  | vstr (s : String)
deriving DecidableEq

/-- The only fatal condition the modelled code can raise (Python TypeError
from comparing or multiplying a non-number). -/
inductive PyErr where
  | typeError
deriving DecidableEq

/-- Python `str.strip()` (ASCII whitespace, which covers the strings of this
development). -/
def pyStripChars (l : List Char) : List Char :=
  ((l.dropWhile Char.isWhitespace).reverse.dropWhile Char.isWhitespace).reverse

/-- Python `str.lower()` (ASCII case folding, which covers the strings of
this development). -/
def pyLowerChars (l : List Char) : List Char := l.map Char.toLower

/-- Digit-run parser for `pyParseInt` (empty run fails). -/
def pyDigitsAcc (acc : Nat) : List Char → Option Nat
  | [] => some acc
  | c :: cs => if c.isDigit then pyDigitsAcc (acc * 10 + (c.toNat - 48)) cs else none

/-- A non-empty all-digit run. -/
def pyDigits : List Char → Option Nat
  | [] => none
  | c :: cs => if c.isDigit then pyDigitsAcc (c.toNat - 48) cs else none

/-- Python `int(s)` on a string: surrounding whitespace allowed, optional
sign, then a non-empty digit run; anything else raises (here: `none`). -/
def pyParseInt (s : String) : Option Int :=
  match pyStripChars s.data with
  | '-' :: cs => (pyDigits cs).map fun n => -(n : Int)
  | '+' :: cs => (pyDigits cs).map fun n => (n : Int)
  | cs => (pyDigits cs).map fun n => (n : Int)

/-- Python `int(v)`: identity on ints, parse for strings (failure = `none`). -/
def pyIntCoerce : Val → Option Int
  | .vint n => some n
  | .vstr s => pyParseInt s

/-- Using a value in arithmetic with ints (`padding + v * cell_size`):
succeeds only for ints, otherwise the Python code raises TypeError. -/
def valAsInt : Val → Except PyErr Int
  | .vint n => .ok n
  | .vstr _ => .error .typeError

/-- Whether a value is a Python int. -/
def valIsInt : Val → Bool
  | .vint _ => true
  | .vstr _ => false

/-- One entry of a `paths` list: optional `start` and `end` coordinate pairs
(missing keys default to `[0, 0]` at the use sites). -/
structure PathDict where
  pstart : Option (Val × Val)
  pend : Option (Val × Val)
deriving DecidableEq

/-- One entry of the `threads` list: optional `color`, optional `paths` key
(new format), optional top-level `start`/`end` (old format). -/
structure ThreadDict where
  color : Option String
  paths : Option (List PathDict)
  tstart : Option (Val × Val)
  tend : Option (Val × Val)
deriving DecidableEq

/-- The `[0, 0]` default used for missing `start`/`end`. -/
def d00 : Val × Val := (Val.vint 0, Val.vint 0)

/-- A segment: the `start` pair and the `end` pair. -/
abbrev Seg := (Val × Val) × (Val × Val)

/-- `path.get("start", [0,0])`, `path.get("end", [0,0])`. -/
def segOfPath (p : PathDict) : Seg := (p.pstart.getD d00, p.pend.getD d00)

/-- The segments a thread entry yields: its `paths` list if the `paths` key
is present, else the single top-level `start`/`end` pair. -/
def threadSegs (t : ThreadDict) : List Seg :=
  match t.paths with
  | some ps => ps.map segOfPath
  | none => [(t.tstart.getD d00, t.tend.getD d00)]

/-- `str(color).strip().lower() == "skip"`. -/
def isSkipStr (s : String) : Bool := pyLowerChars (pyStripChars s.data) == "skip".data

/-- Python `max(a, v, w)` where `a` is an int accumulator and `v`, `w` are
configuration values: TypeError unless both are ints. -/
def valMax3 (a : Int) (v w : Val) : Except PyErr Int :=
  match v, w with
  | .vint x, .vint y => .ok (max a (max x y))
  | _, _ => .error .typeError

/-- Loop body of `calculate_grid_size`:
`max_x = max(max_x, start[0], end[0]); max_y = max(max_y, start[1], end[1])`. -/
def gridStep (acc : Int × Int) (sg : Seg) : Except PyErr (Int × Int) :=
  match valMax3 acc.1 sg.1.1 sg.2.1 with
  | .error e => .error e
  | .ok mx =>
    match valMax3 acc.2 sg.1.2 sg.2.2 with
    | .error e => .error e
    | .ok my => .ok (mx, my)

/-- The accumulation loop of `calculate_grid_size` over all segments. -/
def gridLoop (acc : Int × Int) : List Seg → Except PyErr (Int × Int)
  | [] => .ok acc
  | sg :: sgs =>
    match gridStep acc sg with
    | .error e => .error e
    | .ok acc2 => gridLoop acc2 sgs

/-- `calculate_grid_size(threads)` from `create_mesh.py` lines 32-66. -/
def calculate_grid_size (threads : List ThreadDict) : Except PyErr (Int × Int) :=
  if threads.isEmpty then .ok (40, 40)
  else
    match gridLoop (0, 0) (threads.flatMap threadSegs) with
    | .error e => .error e
    | .ok acc => .ok (max (acc.1 + 1) 1, max (acc.2 + 1) 1)

/-- Grid-size selection in `create_embroidery_mesh` lines 96-109: explicit
`size` forces a square grid, otherwise empty threads give (40, 40), otherwise
`calculate_grid_size`. -/
def computeGrid (size : Option Int) (threads : List ThreadDict) :
    Except PyErr (Int × Int) :=
  match size with
  | some s => .ok (s, s)
  | none => if threads.isEmpty then .ok (40, 40) else calculate_grid_size threads

/-- The fixed padding constant (line 114). -/
def padding : Int := 20

/-- Cell-boundary pixel `padding + i * cell_size`, in half-pixel units. -/
def boundaryHP (cell i : Int) : Int := 2 * (padding + i * cell)

/-- Cell-center pixel `padding + n * cell_size + cell_size / 2`, in
half-pixel units (exact: `2 * (padding + n * cell) + cell`). -/
def centerHP (cell n : Int) : Int := 2 * (padding + n * cell) + cell

/-- One recorded drawing-primitive call.  All coordinates are in half-pixel
units (twice the pixel value computed by the source). -/
inductive DrawOp where
  | line (p1 p2 : Int × Int) (color : String) (width : Int)
  | ellipse (x0 y0 x1 y1 : Int) (color : String)
  | rectFill (p1 p2 : Int × Int) (color : String)
  | rectOutline (p1 p2 : Int × Int) (color : String) (width : Int)
deriving DecidableEq

/-- Grid lines (lines 124-141): `width+1` vertical then `height+1`
horizontal lines, color black, of the configured line width. -/
def gridLineOps (width height cell lw imageW imageH : Int) : List DrawOp :=
  ((List.range (width + 1).toNat).map fun i =>
    DrawOp.line (boundaryHP cell i, 2 * padding)
      (boundaryHP cell i, 2 * (padding + imageH - 1)) "black" lw)
  ++ ((List.range (height + 1).toNat).map fun i =>
    DrawOp.line (2 * padding, boundaryHP cell i)
      (2 * (padding + imageW - 1), boundaryHP cell i) "black" lw)

/-- Intersection markers (lines 143-157): radius-1 filled circles at every
boundary intersection (radius 1 pixel = 2 half-pixels). -/
def pointOps (width height cell : Int) : List DrawOp :=
  (List.range (width + 1).toNat).flatMap fun i =>
    (List.range (height + 1).toNat).map fun j =>
      DrawOp.ellipse (boundaryHP cell i - 2) (boundaryHP cell j - 2)
        (boundaryHP cell i + 2) (boundaryHP cell j + 2) "black"

/-- Knot-spacing coercion (lines 164-169): `int(...)` with failure or a
value below 1 clamped to 1. -/
def coerceSpacing (v : Val) : Int :=
  match pyIntCoerce v with
  | some n => if n < 1 then 1 else n
  | none => 1

/-- `knot_radius = max(1, int(cell_size * 0.48))` (line 175), with the
product truncated as an exact rational (see the header note). -/
def knotRadius (cell : Int) : Int := max 1 (Int.tdiv (cell * 48) 100)

/-- Python `range(s, t, st)` for naturals with positive step `st`. -/
def pyRangeNat (s t st : Nat) : List Nat :=
  (List.range ((t - s + st - 1) / st)).map fun k => s + k * st

/-- The knot stamped for grid index pair `(i, j)`: a filled circle of the
given radius around the cell center (lines 178-188). -/
def knotOpAt (cell : Int) (color : String) (r : Int) (i j : Nat) : DrawOp :=
  DrawOp.ellipse (centerHP cell i - 2 * r) (centerHP cell j - 2 * r)
    (centerHP cell i + 2 * r) (centerHP cell j + 2 * r) color

/-- The french-knot overlay (lines 163-188). -/
def knotOps (width height cell : Int) (color : String) (sv : Val) : List DrawOp :=
  let spacing := coerceSpacing sv
  let step := max 1 (spacing * 2 - 2)
  let st := max 0 (spacing - 1)
  let r := knotRadius cell
  (pyRangeNat st.toNat width.toNat step.toNat).flatMap fun i =>
    (pyRangeNat st.toNat height.toNat step.toNat).map fun j =>
      knotOpAt cell color r i j

/-- The `try: sx, sy = int(start[0]), int(start[1]); ex, ey = ...` block of
the skip scan (lines 203-207): all four coordinates must coerce. -/
def segIntCoords (sg : Seg) : Option (Int × Int × Int × Int) :=
  match pyIntCoerce sg.1.1, pyIntCoerce sg.1.2, pyIntCoerce sg.2.1, pyIntCoerce sg.2.2 with
  | some sx, some sy, some ex, some ey => some (sx, sy, ex, ey)
  | _, _, _, _ => none

/-- One step of the skip bounding-box accumulation (lines 208-235); the
box is stored as `(min_x, max_x, min_y, max_y)`. -/
def skipAccum (bb : Option (Int × Int × Int × Int)) (sg : Seg) :
    Option (Int × Int × Int × Int) :=
  match segIntCoords sg with
  | none => bb
  | some (sx, sy, ex, ey) =>
    match bb with
    | none => some (min sx ex, max sx ex, min sy ey, max sy ey)
    | some (mnx, mxx, mny, mxy) =>
      some (min mnx (min sx ex), max mxx (max sx ex),
            min mny (min sy ey), max mxy (max sy ey))

/-- The segments the skip scan visits: those of threads whose color (default
`""`) normalizes to `"skip"` (lines 194-202). -/
def skipSegs (threads : List ThreadDict) : List Seg :=
  threads.flatMap fun t => if isSkipStr (t.color.getD "") then threadSegs t else []

/-- The union skip bounding box (lines 190-235). -/
def skipBBox (threads : List ThreadDict) : Option (Int × Int × Int × Int) :=
  (skipSegs threads).foldl skipAccum none

/-- The erase pass (lines 239-256): convert the box to a pixel rectangle,
clamp `left`/`top` from below at 0 and `right`/`bottom` from above at
dimension - 1, and fill it white when `left <= right and top <= bottom`;
the second component is the remembered `skip_bbox` (pixel units). -/
def eraseOpsAndRect (bb : Option (Int × Int × Int × Int)) (imgW imgH cell : Int) :
    List DrawOp × Option (Int × Int × Int × Int) :=
  match bb with
  | none => ([], none)
  | some (mnx, mxx, mny, mxy) =>
    let left := max 0 (padding + mnx * cell)
    let top := max 0 (padding + mny * cell)
    let right := min (imgW - 1) (padding + (mxx + 1) * cell)
    let bottom := min (imgH - 1) (padding + (mxy + 1) * cell)
    if left ≤ right ∧ top ≤ bottom then
      ([DrawOp.rectFill (2 * left, 2 * top) (2 * right, 2 * bottom) "white"],
       some (left, top, right, bottom))
    else ([], none)

/-- Whether all four coordinates of a segment are Python ints. -/
def segAllInt (sg : Seg) : Bool :=
  valIsInt sg.1.1 && valIsInt sg.1.2 && valIsInt sg.2.1 && valIsInt sg.2.2

/-- The integer behind a value (0 for non-ints; used only where `segAllInt`
or `valIsInt` guards it). -/
def valAsIntD : Val → Int
  | .vint n => n
  | .vstr _ => 0

/-- Pixel-center conversion and line call for one segment (lines 274-284 and
290-304): `padding + coord * cell_size + cell_size / 2` for each of the four
coordinates, a TypeError if any coordinate is not an int. -/
def lineOpOf (cell tw : Int) (c : String) (s e : Val × Val) : Except PyErr DrawOp :=
  if segAllInt (s, e) then
    .ok (DrawOp.line (centerHP cell (valAsIntD s.1), centerHP cell (valAsIntD s.2))
      (centerHP cell (valAsIntD e.1), centerHP cell (valAsIntD e.2)) c tw)
  else .error .typeError

/-- The per-path loop of the new-format drawing branch (lines 263-284): the
skip check happens before any coordinate arithmetic. -/
def pathLoop (cell tw : Int) (c : String) : List PathDict → Except PyErr (List DrawOp)
  | [] => .ok []
  | p :: ps =>
    if isSkipStr c then pathLoop cell tw c ps
    else
      match lineOpOf cell tw c (p.pstart.getD d00) (p.pend.getD d00) with
      | .error e => .error e
      | .ok op =>
        match pathLoop cell tw c ps with
        | .error e => .error e
        | .ok rest => .ok (op :: rest)

/-- Drawing one thread entry (lines 259-304).  In the old-format branch the
pixel coordinates are computed before the skip check (lines 290-298), so a
non-integer coordinate raises even for a skip-colored thread. -/
def drawThread (cell tw : Int) (t : ThreadDict) : Except PyErr (List DrawOp) :=
  let c := t.color.getD "black"
  match t.paths with
  | some ps => pathLoop cell tw c ps
  | none =>
    match lineOpOf cell tw c (t.tstart.getD d00) (t.tend.getD d00) with
    | .error e => .error e
    | .ok op => if isSkipStr c then .ok [] else .ok [op]

/-- The thread-drawing loop over the whole thread list. -/
def threadLoop (cell tw : Int) : List ThreadDict → Except PyErr (List DrawOp)
  | [] => .ok []
  | t :: ts =>
    match drawThread cell tw t with
    | .error e => .error e
    | .ok l =>
      match threadLoop cell tw ts with
      | .error e => .error e
      | .ok rest => .ok (l ++ rest)

/-- The knot stage (line 163): the overlay runs only when a knot color was
supplied. -/
def knotStageOps (width height cell : Int) (kc : Option String) (sv : Val) :
    List DrawOp :=
  match kc with
  | some col => knotOps width height cell col sv
  | none => []

/-- The debug overlay (lines 306-314): when a skip rectangle was erased and
the debug flag is set, stroke its border in red at width 2. -/
def debugOps (rect : Option (Int × Int × Int × Int)) (dbg : Bool) : List DrawOp :=
  match rect with
  | some (l, t, r, b) =>
    if dbg then [DrawOp.rectOutline (2 * l, 2 * t) (2 * r, 2 * b) "red" 2] else []
  | none => []

/-- The keyword parameters of `create_embroidery_mesh`. -/
structure Params where
  size : Option Int
  cell_size : Int
  line_width : Int
  thread_width : Int
  debug_overlay : Bool
  french_knots_color : Option String
  french_knot_spacing : Val
deriving DecidableEq

/-- The observable result of a successful render: the grid size, the final
image dimensions (pixels), and the ordered drawing calls. -/
structure RenderOut where
  width : Int
  height : Int
  imgW : Int
  imgH : Int
  ops : List DrawOp
deriving DecidableEq

instance : Inhabited RenderOut := ⟨⟨0, 0, 0, 0, []⟩⟩

/-- `create_embroidery_mesh` (lines 69-323).  `threadsData = none` models a
missing configuration file (`load_threads` returns `[]`). -/
def create_embroidery_mesh (p : Params) (threadsData : Option (List ThreadDict)) :
    Except PyErr RenderOut :=
  let threads := threadsData.getD []
  match computeGrid p.size threads with
  | .error e => .error e
  | .ok (width, height) =>
    let imageW := width * p.cell_size + 1
    let imageH := height * p.cell_size + 1
    let imgW := imageW + 2 * padding
    let imgH := imageH + 2 * padding
    let gOps := gridLineOps width height p.cell_size p.line_width imageW imageH
    let ptOps := pointOps width height p.cell_size
    let kOps := knotStageOps width height p.cell_size p.french_knots_color
      p.french_knot_spacing
    let er := eraseOpsAndRect (skipBBox threads) imgW imgH p.cell_size
    match threadLoop p.cell_size p.thread_width threads with
    | .error e => .error e
    | .ok tOps =>
      .ok ⟨width, height, imgW, imgH,
        gOps ++ ptOps ++ kOps ++ er.1 ++ tOps ++ debugOps er.2 p.debug_overlay⟩

/-- Extract the successful result (used only to state concrete instances). -/
def forceOk (r : Except PyErr RenderOut) : RenderOut :=
  match r with
  | .ok o => o
  | .error _ => default

/-!  Claim-side vocabulary: the spec talks about "every start and end
coordinate of every group", about the legacy/paths schema correspondence,
and about classes of draw operations. -/

/-- Whether every coordinate of every segment of every thread is an int. -/
def threadsAllInt (ts : List ThreadDict) : Bool :=
  (ts.flatMap threadSegs).all segAllInt

/-- The x coordinates of a segment, in source order (start then end). -/
def segXs (sg : Seg) : List Int := [valAsIntD sg.1.1, valAsIntD sg.2.1]

/-- The y coordinates of a segment, in source order (start then end). -/
def segYs (sg : Seg) : List Int := [valAsIntD sg.1.2, valAsIntD sg.2.2]

/-- Every x coordinate of every start and end of every group (skip groups
included), in source order. -/
def allXCoords (ts : List ThreadDict) : List Int :=
  (ts.flatMap threadSegs).flatMap segXs

/-- Every y coordinate of every start and end of every group. -/
def allYCoords (ts : List ThreadDict) : List Int :=
  (ts.flatMap threadSegs).flatMap segYs

/-- Rewriting a legacy flat start/end entry as the equivalent paths-list
entry (entries already in the new format are left unchanged). -/
def toPathsForm (t : ThreadDict) : ThreadDict :=
  match t.paths with
  | some _ => t
  | none => ⟨t.color, some [⟨t.tstart, t.tend⟩], none, none⟩

/-- Recognizes the erase pass (filled rectangle). -/
def isRectFillOp : DrawOp → Bool
  | .rectFill _ _ _ => true
  | _ => false

/-- Recognizes a line-draw operation. -/
def isLineOp : DrawOp → Bool
  | .line _ _ _ _ => true
  | _ => false

/-! Helper lemmas about the grid-extent fold. -/

theorem le_foldl_max (xs : List Int) : ∀ a : Int, a ≤ xs.foldl max a := by
  induction xs with
  | nil => intro a; simp
  | cons x xs ih => intro a; exact le_trans (le_max_left a x) (ih (max a x))

theorem mem_le_foldl_max (xs : List Int) : ∀ a c : Int, c ∈ xs → c ≤ xs.foldl max a := by
  induction xs with
  | nil => intro a c h; simp at h
  | cons x xs ih =>
    intro a c h
    rcases List.mem_cons.mp h with h1 | h2
    · subst h1
      exact le_trans (le_max_right a c) (le_foldl_max xs (max a c))
    · exact ih (max a x) c h2

theorem foldl_max_le (xs : List Int) :
    ∀ a c : Int, a ≤ c → (∀ b ∈ xs, b ≤ c) → xs.foldl max a ≤ c := by
  induction xs with
  | nil => intro a c h _; simpa using h
  | cons x xs ih =>
    intro a c ha hb
    exact ih (max a x) c (max_le ha (hb x (List.mem_cons_self x xs)))
      fun b hbm => hb b (List.mem_cons_of_mem x hbm)

theorem foldl_max_eq (xs : List Int) (a m : Int) (hm : m ∈ xs)
    (hub : ∀ c ∈ xs, c ≤ m) : xs.foldl max a = max a m :=
  le_antisymm
    (foldl_max_le xs a (max a m) (le_max_left a m)
      fun b hb => le_trans (hub b hb) (le_max_right a m))
    (max_le (le_foldl_max xs a) (mem_le_foldl_max xs a m hm))

theorem maxShift (m : Int) : max (max 0 m + 1) 1 = max (m + 1) 1 := by
  simp only [max_def]
  split <;> split <;> omega

/-- On all-int segments the grid loop never raises and computes the left
fold of `max` over the x coordinates and over the y coordinates. -/
theorem gridLoop_allInt :
    ∀ (sgs : List Seg), sgs.all segAllInt = true → ∀ a b : Int,
      gridLoop (a, b) sgs =
        .ok ((sgs.flatMap segXs).foldl max a, (sgs.flatMap segYs).foldl max b) := by
  intro sgs
  induction sgs with
  | nil => intro _ a b; simp [gridLoop]
  | cons sg sgs ih =>
    intro h a b
    simp only [List.all_cons, Bool.and_eq_true] at h
    obtain ⟨⟨s1, s2⟩, e1, e2⟩ := sg
    cases s1 with
    | vstr s => simp [segAllInt, valIsInt] at h
    | vint x1 =>
      cases s2 with
      | vstr s => simp [segAllInt, valIsInt] at h
      | vint y1 =>
        cases e1 with
        | vstr s => simp [segAllInt, valIsInt] at h
        | vint x2 =>
          cases e2 with
          | vstr s => simp [segAllInt, valIsInt] at h
          | vint y2 =>
            have hstep :
                gridLoop (a, b)
                    (((Val.vint x1, Val.vint y1), (Val.vint x2, Val.vint y2)) :: sgs)
                  = gridLoop (max a (max x1 x2), max b (max y1 y2)) sgs := rfl
            rw [hstep, ih h.2]
            simp [segXs, segYs, valAsIntD, max_assoc]

/-- C1: grid derivation.  With an explicit size the grid is the square
(size, size) whatever the threads are; with no size an empty thread list
gives (40, 40); and with no size a non-empty thread list whose coordinates
are ints gives (max_x + 1, max_y + 1) floored at 1 per axis, where
max_x/max_y range over every start and end coordinate of every group (skip
groups included). -/
theorem c1_grid_spec (ts : List ThreadDict) (mx my : Int)
    (hall : threadsAllInt ts = true)
    (hmx : mx ∈ allXCoords ts) (hubx : ∀ c ∈ allXCoords ts, c ≤ mx)
    (hmy : my ∈ allYCoords ts) (huby : ∀ c ∈ allYCoords ts, c ≤ my) :
    (∀ s, computeGrid (some s) ts = .ok (s, s))
    ∧ computeGrid none [] = .ok (40, 40)
    ∧ computeGrid none ts = .ok (max (mx + 1) 1, max (my + 1) 1) := by
  refine ⟨fun s => rfl, rfl, ?_⟩
  cases ts with
  | nil => simp [allXCoords, threadSegs] at hmx
  | cons t ts2 =>
    have hcalc :
        computeGrid none (t :: ts2) = calculate_grid_size (t :: ts2) := rfl
    rw [hcalc]
    unfold calculate_grid_size
    rw [gridLoop_allInt ((t :: ts2).flatMap threadSegs) hall 0 0]
    simp only [allXCoords, allYCoords] at hmx hubx hmy huby
    rw [if_neg (by simp)]
    rw [foldl_max_eq _ 0 mx hmx hubx, foldl_max_eq _ 0 my hmy huby]
    simp
    constructor <;> (simp only [max_def]; split <;> split <;> omega)

/-- Concrete fixture for the C1 witness: one paths-format thread with
segment (2, 1) → (0, 3). -/
def cfgC1 : List ThreadDict :=
  [⟨some "red", some [⟨some (Val.vint 2, Val.vint 1), some (Val.vint 0, Val.vint 3)⟩],
    none, none⟩]

/-- Witness for C1 at a concrete input: max x is 2, max y is 3, so the
auto-sized grid is (3, 4). -/
theorem c1_grid_spec_witness :
    computeGrid none cfgC1 = .ok (max (2 + 1) 1, max (3 + 1) 1) :=
  (c1_grid_spec cfgC1 2 3 (by decide) (by decide) (by decide)
    (by decide) (by decide)).2.2

/-- The end-to-end fixture of the spec: one red thread (0,1) → (1,0). -/
def cfgC6 : List ThreadDict :=
  [⟨some "red", some [⟨some (Val.vint 0, Val.vint 1), some (Val.vint 1, Val.vint 0)⟩],
    none, none⟩]

/-- Parameters for the end-to-end fixture: auto size, cell 20, no knots. -/
def pC6 : Params := ⟨none, 20, 1, 7, false, none, Val.vint 1⟩

/-- C6: the final image dimensions are width * cell_size + 1 + 2 * padding
by height * cell_size + 1 + 2 * padding with padding fixed at 20. -/
theorem c6_canvas_dims (p : Params) (tf : Option (List ThreadDict)) (out : RenderOut)
    (hok : create_embroidery_mesh p tf = .ok out) :
    padding = 20
    ∧ out.imgW = out.width * p.cell_size + 1 + 2 * padding
    ∧ out.imgH = out.height * p.cell_size + 1 + 2 * padding := by
  refine ⟨rfl, ?_⟩
  simp only [create_embroidery_mesh] at hok
  split at hok
  · exact absurd hok (by simp)
  · split at hok
    · exact absurd hok (by simp)
    · simp only [Except.ok.injEq] at hok
      subst hok
      simp

/-- Witness for C6: the spec's end-to-end example renders an 81-pixel
square canvas on the (2, 2) auto-sized grid at cell size 20. -/
theorem c6_canvas_dims_witness :
    (forceOk (create_embroidery_mesh pC6 (some cfgC6))).imgW
        = (forceOk (create_embroidery_mesh pC6 (some cfgC6))).width * pC6.cell_size
            + 1 + 2 * padding
    ∧ (forceOk (create_embroidery_mesh pC6 (some cfgC6))).imgW = 81
    ∧ (forceOk (create_embroidery_mesh pC6 (some cfgC6))).imgH = 81 :=
  ⟨(c6_canvas_dims pC6 (some cfgC6)
      (forceOk (create_embroidery_mesh pC6 (some cfgC6))) (by decide)).2.1,
   by decide, by decide⟩

/-- C9: determinism.  Two invocations with equal parameter records and
equal configuration data produce equal outputs (the model has no hidden
state: the result is a function of its arguments). -/
theorem c9_deterministic (p1 p2 : Params) (t1 t2 : Option (List ThreadDict))
    (hpeq : p1 = p2) (hteq : t1 = t2) :
    create_embroidery_mesh p1 t1 = create_embroidery_mesh p2 t2 := by
  rw [hpeq, hteq]

/-- Witness for C9 at the end-to-end fixture. -/
theorem c9_deterministic_witness :
    create_embroidery_mesh pC6 (some cfgC6) = create_embroidery_mesh pC6 (some cfgC6) :=
  c9_deterministic pC6 pC6 (some cfgC6) (some cfgC6) rfl rfl

/-- C10: when the `paths` key is present, the top-level start/end of the
entry are ignored by the extent calculation, the skip bounding-box scan and
the thread drawing; and an entry with `paths: []` contributes no segments
and no drawing at all. -/
theorem c10_paths_ignore_flat (t : ThreadDict) (ps : List PathDict)
    (hpp : t.paths = some ps) (s2 e2 : Option (Val × Val)) (cell tw : Int)
    (pre post : List ThreadDict) :
    calculate_grid_size (pre ++ ⟨t.color, t.paths, s2, e2⟩ :: post)
      = calculate_grid_size (pre ++ t :: post)
    ∧ skipBBox (pre ++ ⟨t.color, t.paths, s2, e2⟩ :: post)
      = skipBBox (pre ++ t :: post)
    ∧ threadLoop cell tw (pre ++ ⟨t.color, t.paths, s2, e2⟩ :: post)
      = threadLoop cell tw (pre ++ t :: post)
    ∧ (ps = [] → threadSegs t = [] ∧ drawThread cell tw t = .ok []) := by
  have hsegs : threadSegs ⟨t.color, t.paths, s2, e2⟩ = threadSegs t := by
    simp [threadSegs, hpp]
  refine ⟨?_, ?_, ?_, ?_⟩
  · unfold calculate_grid_size
    have h1 : (pre ++ ⟨t.color, t.paths, s2, e2⟩ :: post).flatMap threadSegs
        = (pre ++ t :: post).flatMap threadSegs := by
      simp [List.flatMap_append, hsegs]
    have h2 : (pre ++ ⟨t.color, t.paths, s2, e2⟩ :: post).isEmpty
        = (pre ++ t :: post).isEmpty := by cases pre <;> simp
    rw [h1, h2]
  · unfold skipBBox
    have h3 : skipSegs (pre ++ ⟨t.color, t.paths, s2, e2⟩ :: post)
        = skipSegs (pre ++ t :: post) := by
      simp [skipSegs, List.flatMap_append, hsegs]
    rw [h3]
  · have hdraw : drawThread cell tw ⟨t.color, t.paths, s2, e2⟩ = drawThread cell tw t := by
      simp [drawThread, hpp]
    induction pre with
    | nil => simp [threadLoop, hdraw]
    | cons q pre ih => simp [threadLoop, ih]
  · intro hnil
    subst hnil
    exact ⟨by simp [threadSegs, hpp], by simp [drawThread, hpp, pathLoop]⟩

/-- Fixture for the C10 witness: an entry carrying both `paths: []` and
top-level start/end (9, 9) → (9, 9). -/
def tC10 : ThreadDict :=
  ⟨some "red", some [], some (Val.vint 9, Val.vint 9), some (Val.vint 9, Val.vint 9)⟩

/-- Witness for C10: dropping the top-level start/end of `tC10` changes no
thread drawing, and its empty paths list draws nothing. -/
theorem c10_paths_ignore_flat_witness :
    threadLoop 20 7 [⟨tC10.color, tC10.paths, none, none⟩] = threadLoop 20 7 [tC10]
    ∧ drawThread 20 7 tC10 = .ok [] :=
  ⟨(c10_paths_ignore_flat tC10 [] rfl none none 20 7 [] []).2.2.1,
   ((c10_paths_ignore_flat tC10 [] rfl none none 20 7 [] []).2.2.2 rfl).2⟩

/-! Classification of the operations each rendering stage emits. -/

theorem mem_gridLineOps {w h c lw iw ih : Int} {op : DrawOp}
    (hm : op ∈ gridLineOps w h c lw iw ih) :
    ∃ q1 q2, op = DrawOp.line q1 q2 "black" lw := by
  simp only [gridLineOps, List.mem_append, List.mem_map] at hm
  rcases hm with ⟨i, _, hop⟩ | ⟨i, _, hop⟩ <;> exact ⟨_, _, hop.symm⟩

theorem mem_pointOps {w h c : Int} {op : DrawOp} (hm : op ∈ pointOps w h c) :
    ∃ a b a2 b2, op = DrawOp.ellipse a b a2 b2 "black" := by
  simp only [pointOps, List.mem_flatMap, List.mem_map] at hm
  obtain ⟨i, _, j, _, hop⟩ := hm
  exact ⟨_, _, _, _, hop.symm⟩

theorem mem_knotOps {w h c : Int} {col : String} {sv : Val} {op : DrawOp}
    (hm : op ∈ knotOps w h c col sv) :
    ∃ i j, op = knotOpAt c col (knotRadius c) i j := by
  simp only [knotOps, List.mem_flatMap, List.mem_map] at hm
  obtain ⟨i, _, j, _, hop⟩ := hm
  exact ⟨i, j, hop.symm⟩

theorem mem_knotStageOps {w h c : Int} {kc : Option String} {sv : Val} {op : DrawOp}
    (hm : op ∈ knotStageOps w h c kc sv) :
    ∃ col i j, op = knotOpAt c col (knotRadius c) i j := by
  unfold knotStageOps at hm
  rcases kc with _ | col
  · simp at hm
  · obtain ⟨i, j, hop⟩ := mem_knotOps hm
    exact ⟨col, i, j, hop⟩

theorem mem_eraseOps {bb : Option (Int × Int × Int × Int)} {iw ih c : Int} {op : DrawOp}
    (hm : op ∈ (eraseOpsAndRect bb iw ih c).1) :
    ∃ q1 q2, op = DrawOp.rectFill q1 q2 "white" := by
  unfold eraseOpsAndRect at hm
  rcases bb with _ | ⟨mnx, mxx, mny, mxy⟩
  · simp at hm
  · simp only at hm
    split at hm
    · simp only [List.mem_singleton] at hm
      exact ⟨_, _, hm⟩
    · simp at hm

theorem mem_debugOps {rect : Option (Int × Int × Int × Int)} {dbg : Bool} {op : DrawOp}
    (hm : op ∈ debugOps rect dbg) :
    ∃ q1 q2, op = DrawOp.rectOutline q1 q2 "red" 2 := by
  unfold debugOps at hm
  rcases rect with _ | ⟨l, t, r, b⟩
  · simp at hm
  · simp only at hm
    split at hm
    · simp only [List.mem_singleton] at hm
      exact ⟨_, _, hm⟩
    · simp at hm

/-- A skip-colored group makes the per-path loop emit nothing. -/
theorem pathLoop_skip {cell tw : Int} {c : String} (hsk : isSkipStr c = true) :
    ∀ ps, pathLoop cell tw c ps = .ok [] := by
  intro ps
  induction ps with
  | nil => rfl
  | cons p ps ih => simp [pathLoop, hsk, ih]

/-- Every operation the per-path loop emits is a line in the group's color,
and emission only happens for non-skip colors. -/
theorem pathLoop_ops {cell tw : Int} {c : String} :
    ∀ {ps : List PathDict} {l : List DrawOp}, pathLoop cell tw c ps = .ok l →
      ∀ op ∈ l, (∃ q1 q2, op = DrawOp.line q1 q2 c tw) ∧ isSkipStr c = false := by
  intro ps
  induction ps with
  | nil =>
    intro l hl op hop
    simp only [pathLoop, Except.ok.injEq] at hl
    subst hl
    simp at hop
  | cons p ps ih =>
    intro l hl op hop
    rw [pathLoop] at hl
    rcases Bool.eq_false_or_eq_true (isSkipStr c) with hsk | hsk
    · rw [if_pos hsk] at hl
      rw [pathLoop_skip hsk ps] at hl
      have hle : ([] : List DrawOp) = l := Except.ok.inj hl
      subst hle
      simp at hop
    · rw [if_neg (by simp [hsk])] at hl
      split at hl
      · exact absurd hl (by simp)
      · rename_i op2 hline
        split at hl
        · exact absurd hl (by simp)
        · rename_i rest hrest
          simp only [Except.ok.injEq] at hl
          subst hl
          rcases List.mem_cons.mp hop with h1 | h2
          · subst h1
            unfold lineOpOf at hline
            split at hline
            · simp only [Except.ok.injEq] at hline
              exact ⟨⟨_, _, hline.symm⟩, hsk⟩
            · exact absurd hline (by simp)
          · exact ih hrest op h2

/-- Every operation `drawThread` emits is a line in the entry's effective
color, and emission only happens when that color is not the skip marker. -/
theorem drawThread_ops {cell tw : Int} {t : ThreadDict} {l : List DrawOp}
    (hd : drawThread cell tw t = .ok l) :
    ∀ op ∈ l, (∃ q1 q2, op = DrawOp.line q1 q2 (t.color.getD "black") tw)
      ∧ isSkipStr (t.color.getD "black") = false := by
  intro op hop
  unfold drawThread at hd
  rcases hpp : t.paths with _ | ps
  · rw [hpp] at hd
    simp only at hd
    split at hd
    · exact absurd hd (by simp)
    · rename_i op2 hline
      rcases Bool.eq_false_or_eq_true (isSkipStr (t.color.getD "black")) with hsk | hsk
      · rw [if_pos hsk] at hd
        have hle : ([] : List DrawOp) = l := Except.ok.inj hd
        subst hle
        simp at hop
      · rw [if_neg (by simp [hsk])] at hd
        have hle : [op2] = l := Except.ok.inj hd
        subst hle
        rcases List.mem_singleton.mp hop with rfl
        unfold lineOpOf at hline
        split at hline
        · simp only [Except.ok.injEq] at hline
          exact ⟨⟨_, _, hline.symm⟩, hsk⟩
        · exact absurd hline (by simp)
  · rw [hpp] at hd
    simp only at hd
    exact pathLoop_ops hd op hop

/-- Every operation the thread-drawing loop emits is a line whose color is
not the skip marker. -/
theorem threadLoop_ops {cell tw : Int} :
    ∀ {ts : List ThreadDict} {l : List DrawOp}, threadLoop cell tw ts = .ok l →
      ∀ op ∈ l, ∃ ccol q1 q2, op = DrawOp.line q1 q2 ccol tw ∧ isSkipStr ccol = false := by
  intro ts
  induction ts with
  | nil =>
    intro l hl op hop
    simp only [threadLoop, Except.ok.injEq] at hl
    subst hl
    simp at hop
  | cons t ts ih =>
    intro l hl op hop
    rw [threadLoop] at hl
    split at hl
    · exact absurd hl (by simp)
    · rename_i l1 hd
      split at hl
      · exact absurd hl (by simp)
      · rename_i rest hrest
        simp only [Except.ok.injEq] at hl
        subst hl
        rcases List.mem_append.mp hop with h1 | h2
        · obtain ⟨⟨q1, q2, hop2⟩, hsk⟩ := drawThread_ops hd op h1
          exact ⟨_, q1, q2, hop2, hsk⟩
        · exact ih hrest op h2

/-- C4: a thread group whose color normalizes (strip + lowercase) to
"skip" never yields a line-draw operation, in either schema: every line
operation in a successful render has a non-skip color. -/
theorem c4_skip_never_drawn (p : Params) (tf : Option (List ThreadDict)) (out : RenderOut)
    (hok : create_embroidery_mesh p tf = .ok out)
    (q1 q2 : Int × Int) (c : String) (w : Int)
    (hmem : DrawOp.line q1 q2 c w ∈ out.ops) :
    isSkipStr c = false := by
  cases hg : computeGrid p.size (tf.getD []) with
  | error e => simp [create_embroidery_mesh, hg] at hok
  | ok wh =>
    obtain ⟨gw, gh⟩ := wh
    cases ht : threadLoop p.cell_size p.thread_width (tf.getD []) with
    | error e => simp [create_embroidery_mesh, hg, ht] at hok
    | ok tOps =>
      simp only [create_embroidery_mesh, hg, ht, Except.ok.injEq] at hok
      subst hok
      simp only [List.mem_append] at hmem
      rcases hmem with ((((hm | hm) | hm) | hm) | hm) | hm
      · obtain ⟨a, b, hop⟩ := mem_gridLineOps hm
        rcases DrawOp.line.inj hop with ⟨_, _, rfl, _⟩
        decide
      · obtain ⟨a, b, a2, b2, hop⟩ := mem_pointOps hm
        exact absurd hop (by simp)
      · obtain ⟨col, i, j, hop⟩ := mem_knotStageOps hm
        exact absurd hop (by simp [knotOpAt])
      · obtain ⟨a, b, hop⟩ := mem_eraseOps hm
        exact absurd hop (by simp)
      · obtain ⟨ccol, a, b, hop, hsk⟩ := threadLoop_ops ht _ hm
        rcases DrawOp.line.inj hop with ⟨_, _, rfl, _⟩
        exact hsk
      · obtain ⟨a, b, hop⟩ := mem_debugOps hm
        exact absurd hop (by simp)

/-- Witness for C4: the end-to-end fixture succeeds and contains the red
thread line from pixel (30, 50) to (50, 30) (stored doubled), whose color
is not the skip marker. -/
theorem c4_skip_never_drawn_witness : isSkipStr "red" = false :=
  c4_skip_never_drawn pC6 (some cfgC6)
    (forceOk (create_embroidery_mesh pC6 (some cfgC6))) (by decide)
    (60, 100) (100, 60) "red" 7 (by decide)

/-! Python range membership, for the knot lattice. -/

theorem lt_rangeLen_iff {s t st k : Nat} (hst : 1 ≤ st) :
    k < (t - s + st - 1) / st ↔ s + k * st < t := by
  rw [Nat.lt_iff_add_one_le, Nat.le_div_iff_mul_le (by omega : 0 < st), add_one_mul]
  generalize k * st = m
  omega

theorem mem_pyRangeNat {s t st : Nat} (hst : 1 ≤ st) {i : Nat} :
    i ∈ pyRangeNat s t st ↔ ∃ k : Nat, i = s + k * st ∧ i < t := by
  unfold pyRangeNat
  simp only [List.mem_map, List.mem_range]
  constructor
  · rintro ⟨k, hk, rfl⟩
    exact ⟨k, rfl, (lt_rangeLen_iff hst).mp hk⟩
  · rintro ⟨k, rfl, hlt⟩
    exact ⟨k, (lt_rangeLen_iff hst).mpr hlt, rfl⟩

/-- C5: knot placement.  A spacing value that fails integer coercion, or
coerces below 1, is clamped to 1; and the knot overlay stamps a knot at the
cell center of exactly the grid index pairs (i, j) with both indices of the
form start + k * step below the grid bound, where step = max(1, 2 * spacing
- 2) and start = max(0, spacing - 1). -/
theorem c5_knot_lattice (width height cell : Int) (color : String) (sv : Val)
    (op : DrawOp) :
    ((pyIntCoerce sv = none ∨ ∃ n, pyIntCoerce sv = some n ∧ n < 1) →
        coerceSpacing sv = 1)
    ∧ (op ∈ knotOps width height cell color sv ↔
        ∃ i j : Nat,
          (∃ k : Nat, (i : Int)
            = max 0 (coerceSpacing sv - 1) + k * max 1 (coerceSpacing sv * 2 - 2))
          ∧ (i : Int) < width
          ∧ (∃ k : Nat, (j : Int)
            = max 0 (coerceSpacing sv - 1) + k * max 1 (coerceSpacing sv * 2 - 2))
          ∧ (j : Int) < height
          ∧ op = knotOpAt cell color (knotRadius cell) i j) := by
  constructor
  · intro h
    rcases h with h | ⟨n, hn, hlt⟩
    · simp [coerceSpacing, h]
    · simp [coerceSpacing, hn, if_pos hlt]
  · have hst0 : (0 : Int) ≤ max 0 (coerceSpacing sv - 1) := le_max_left _ _
    have hstep1 : (1 : Int) ≤ max 1 (coerceSpacing sv * 2 - 2) := le_max_left _ _
    have e1 : (((max 0 (coerceSpacing sv - 1)).toNat : Int))
        = max 0 (coerceSpacing sv - 1) := Int.toNat_of_nonneg hst0
    have e2 : (((max 1 (coerceSpacing sv * 2 - 2)).toNat : Int))
        = max 1 (coerceSpacing sv * 2 - 2) := Int.toNat_of_nonneg (by omega)
    have hstn : 1 ≤ (max 1 (coerceSpacing sv * 2 - 2)).toNat := by omega
    unfold knotOps
    simp only [List.mem_flatMap, List.mem_map]
    constructor
    · rintro ⟨i, hi, j, hj, rfl⟩
      rw [mem_pyRangeNat hstn] at hi hj
      obtain ⟨k1, hik, hiw⟩ := hi
      obtain ⟨k2, hjk, hjh⟩ := hj
      refine ⟨i, j, ⟨k1, ?_⟩, by omega, ⟨k2, ?_⟩, by omega, rfl⟩
      · rw [hik]; push_cast; rw [e1, e2]
      · rw [hjk]; push_cast; rw [e1, e2]
    · rintro ⟨i, j, ⟨k1, hik⟩, hiw, ⟨k2, hjk⟩, hjh, rfl⟩
      refine ⟨i, ?_, j, ?_, rfl⟩
      · rw [mem_pyRangeNat hstn]
        refine ⟨k1, ?_, by omega⟩
        rw [← e1, ← e2] at hik
        exact_mod_cast hik
      · rw [mem_pyRangeNat hstn]
        refine ⟨k2, ?_, by omega⟩
        rw [← e1, ← e2] at hjk
        exact_mod_cast hjk

/-- Witness for C5: with spacing 1 on a 3-by-3 grid at cell size 20, the
knot at grid index (0, 0) is stamped. -/
theorem c5_knot_lattice_witness :
    knotOpAt 20 "gold" (knotRadius 20) 0 0 ∈ knotOps 3 3 20 "gold" (Val.vint 1) :=
  (c5_knot_lattice 3 3 20 "gold" (Val.vint 1)
      (knotOpAt 20 "gold" (knotRadius 20) 0 0)).2.mpr
    ⟨0, 0, ⟨0, by decide⟩, by decide, ⟨0, by decide⟩, by decide, rfl⟩

/-- C8 (amended): every knot is a filled circle around the cell center of
its index pair whose radius is max(1, int(cell_size * 0.48)) — with the
integer truncation the implementation applies (the claim's un-truncated
max(1, cell_size * 0.48) is refuted by `c8_counterexample`). -/
theorem c8_knot_radius (width height cell : Int) (color : String) (sv : Val)
    (op : DrawOp) (hm : op ∈ knotOps width height cell color sv) :
    ∃ i j : Nat,
      op = DrawOp.ellipse
        (centerHP cell i - 2 * max 1 (Int.tdiv (cell * 48) 100))
        (centerHP cell j - 2 * max 1 (Int.tdiv (cell * 48) 100))
        (centerHP cell i + 2 * max 1 (Int.tdiv (cell * 48) 100))
        (centerHP cell j + 2 * max 1 (Int.tdiv (cell * 48) 100)) color := by
  obtain ⟨i, j, hop⟩ := mem_knotOps hm
  exact ⟨i, j, by simp [hop, knotOpAt, knotRadius]⟩

/-- Witness for C8: the single knot of a 1-by-1 grid at cell size 20. -/
theorem c8_knot_radius_witness :
    ∃ i j : Nat,
      DrawOp.ellipse 42 42 78 78 "gold" = DrawOp.ellipse
        (centerHP 20 i - 2 * max 1 (Int.tdiv (20 * 48) 100))
        (centerHP 20 j - 2 * max 1 (Int.tdiv (20 * 48) 100))
        (centerHP 20 i + 2 * max 1 (Int.tdiv (20 * 48) 100))
        (centerHP 20 j + 2 * max 1 (Int.tdiv (20 * 48) 100)) "gold" :=
  c8_knot_radius 1 1 20 "gold" (Val.vint 1)
    (DrawOp.ellipse 42 42 78 78 "gold") (by decide)

/-- Counterexample for C8 as stated: at cell size 20 the sole knot of a
1-by-1 grid spans 42..78 in half-pixel units, a pixel radius of
(78 - 42) / 4 = 9, while the claim's radius max(1, 20 * 0.48) would be
9.6. -/
theorem c8_counterexample :
    knotOps 1 1 20 "gold" (Val.vint 1) = [DrawOp.ellipse 42 42 78 78 "gold"]
    ∧ ((78 - 42 : Rat) / 4 ≠ max 1 ((20 : Rat) * (48 / 100))) := by
  constructor
  · decide
  · norm_num [max_def]

/-- Lists without fill operations filter to nothing. -/
theorem filter_rectFill_nil {l : List DrawOp}
    (h : ∀ op ∈ l, isRectFillOp op = false) : l.filter isRectFillOp = [] := by
  induction l with
  | nil => rfl
  | cons a l ih =>
    rw [List.filter_cons, h a (List.mem_cons_self a l)]
    simp only [Bool.false_eq_true, if_false]
    exact ih fun op hop => h op (List.mem_cons_of_mem a hop)

/-- C2 (amended): with at least one validly-coerced skip coordinate (union
box (mnx, mny)..(mxx, mxy)), the render contains exactly one erase fill,
over the rectangle with left/top = padding + min * cell clamped from below
at 0 and right/bottom = padding + (max + 1) * cell clamped from above at
canvas dimension - 1, provided left ≤ right and top ≤ bottom after
clamping — and no erase fill at all otherwise (the claim's clamping of all
four coordinates into [0, dimension - 1] is refuted by
`c2_counterexample`).  Coordinates appear doubled (half-pixel units). -/
theorem c2_skip_erase (p : Params) (tf : Option (List ThreadDict)) (out : RenderOut)
    (mnx mxx mny mxy : Int)
    (hok : create_embroidery_mesh p tf = .ok out)
    (hbb : skipBBox (tf.getD []) = some (mnx, mxx, mny, mxy)) :
    ((max 0 (padding + mnx * p.cell_size)
        ≤ min (out.imgW - 1) (padding + (mxx + 1) * p.cell_size)
      ∧ max 0 (padding + mny * p.cell_size)
        ≤ min (out.imgH - 1) (padding + (mxy + 1) * p.cell_size)) →
      out.ops.filter isRectFillOp
        = [DrawOp.rectFill
            (2 * max 0 (padding + mnx * p.cell_size),
             2 * max 0 (padding + mny * p.cell_size))
            (2 * min (out.imgW - 1) (padding + (mxx + 1) * p.cell_size),
             2 * min (out.imgH - 1) (padding + (mxy + 1) * p.cell_size)) "white"])
    ∧ (¬(max 0 (padding + mnx * p.cell_size)
          ≤ min (out.imgW - 1) (padding + (mxx + 1) * p.cell_size)
        ∧ max 0 (padding + mny * p.cell_size)
          ≤ min (out.imgH - 1) (padding + (mxy + 1) * p.cell_size)) →
      out.ops.filter isRectFillOp = []) := by
  cases hg : computeGrid p.size (tf.getD []) with
  | error e => simp [create_embroidery_mesh, hg] at hok
  | ok wh =>
    obtain ⟨gw, gh⟩ := wh
    cases ht : threadLoop p.cell_size p.thread_width (tf.getD []) with
    | error e => simp [create_embroidery_mesh, hg, ht] at hok
    | ok tOps =>
      simp only [create_embroidery_mesh, hg, ht, Except.ok.injEq] at hok
      subst hok
      have hfg : (gridLineOps gw gh p.cell_size p.line_width
          (gw * p.cell_size + 1) (gh * p.cell_size + 1)).filter isRectFillOp = [] :=
        filter_rectFill_nil fun op hm => by
          obtain ⟨a, b, hop⟩ := mem_gridLineOps hm
          simp [hop, isRectFillOp]
      have hfp : (pointOps gw gh p.cell_size).filter isRectFillOp = [] :=
        filter_rectFill_nil fun op hm => by
          obtain ⟨a, b, a2, b2, hop⟩ := mem_pointOps hm
          simp [hop, isRectFillOp]
      have hfk : (knotStageOps gw gh p.cell_size p.french_knots_color
          p.french_knot_spacing).filter isRectFillOp = [] :=
        filter_rectFill_nil fun op hm => by
          obtain ⟨col, i, j, hop⟩ := mem_knotStageOps hm
          simp [hop, isRectFillOp, knotOpAt]
      have hft : tOps.filter isRectFillOp = [] :=
        filter_rectFill_nil fun op hm => by
          obtain ⟨ccol, a, b, hop, hsk⟩ := threadLoop_ops ht op hm
          simp [hop, isRectFillOp]
      have hfd : ∀ rect dbg, (debugOps rect dbg).filter isRectFillOp = [] :=
        fun rect dbg => filter_rectFill_nil fun op hm => by
          obtain ⟨a, b, hop⟩ := mem_debugOps hm
          simp [hop, isRectFillOp]
      simp only [List.filter_append, hfg, hfp, hfk, hft, hfd, hbb,
        List.nil_append, List.append_nil]
      unfold eraseOpsAndRect
      simp only
      split
      · rename_i hguard
        constructor
        · intro _
          simp [isRectFillOp, List.filter_cons]
        · intro hng
          exact absurd hguard hng
      · rename_i hguard
        constructor
        · intro hg2
          exact absurd hg2 hguard
        · intro _
          simp

/-- Fixture for the C2 witness: one skip segment (2, 2) → (4, 4), the
spec's own example. -/
def cfgC2w : List ThreadDict :=
  [⟨some "skip", some [⟨some (Val.vint 2, Val.vint 2), some (Val.vint 4, Val.vint 4)⟩],
    none, none⟩]

/-- Parameters for the C2 witness: auto size (the skip extent gives a 5-by-5
grid), cell size 20. -/
def pC2w : Params := ⟨none, 20, 1, 7, false, none, Val.vint 1⟩

/-- Witness for C2: the skip segment (2,2) → (4,4) erases exactly the pixel
rectangle (60, 60) → (120, 120), i.e. (padding + 2 * cell) → (padding + 5 *
cell), stored doubled. -/
theorem c2_skip_erase_witness :
    (forceOk (create_embroidery_mesh pC2w (some cfgC2w))).ops.filter isRectFillOp
      = [DrawOp.rectFill (120, 120) (240, 240) "white"] :=
  (c2_skip_erase pC2w (some cfgC2w)
      (forceOk (create_embroidery_mesh pC2w (some cfgC2w))) 2 4 2 4
      (by decide) (by decide)).1 (by decide)

/-- Fixture for the C2 counterexample: a legacy skip segment at (10, 10) on
an explicitly sized 1-by-1 grid, so the box lies beyond the canvas. -/
def cfgC2c : List ThreadDict :=
  [⟨some "skip", none, some (Val.vint 10, Val.vint 10), some (Val.vint 10, Val.vint 10)⟩]

/-- Parameters for the C2 counterexample: explicit size 1, cell size 20
(canvas 61 pixels). -/
def pC2c : Params := ⟨some 1, 20, 1, 7, false, none, Val.vint 1⟩

/-- Counterexample for C2 as stated: the configuration has a validly-coerced
skip coordinate (the box is (10,10)..(10,10)) and renders fine, yet no erase
fill is performed at all — the code clamps left/top only from below and
right/bottom only from above and skips the erase when left > right, whereas
clamping all four coordinates into [0, canvas - 1] as claimed would always
erase a (possibly degenerate) rectangle here. -/
theorem c2_counterexample :
    skipBBox cfgC2c = some (10, 10, 10, 10)
    ∧ (create_embroidery_mesh pC2c (some cfgC2c)).isOk = true
    ∧ (forceOk (create_embroidery_mesh pC2c (some cfgC2c))).ops.filter isRectFillOp
        = [] := by
  refine ⟨by decide, by decide, by decide⟩

/-! C3: legacy flat entries versus paths-list entries. -/

theorem threadSegs_toPathsForm (t : ThreadDict) :
    threadSegs (toPathsForm t) = threadSegs t := by
  cases hpp : t.paths <;> simp [toPathsForm, threadSegs, hpp, segOfPath]

theorem color_toPathsForm (t : ThreadDict) : (toPathsForm t).color = t.color := by
  cases hpp : t.paths <;> simp [toPathsForm, hpp]

theorem flatMap_toPathsForm (ts : List ThreadDict) :
    (ts.map toPathsForm).flatMap threadSegs = ts.flatMap threadSegs := by
  induction ts with
  | nil => rfl
  | cons t ts ih => simp [List.flatMap_cons, threadSegs_toPathsForm, ih]

theorem isEmpty_map_toPathsForm (ts : List ThreadDict) :
    (ts.map toPathsForm).isEmpty = ts.isEmpty := by
  cases ts <;> rfl

theorem calculate_toPathsForm (ts : List ThreadDict) :
    calculate_grid_size (ts.map toPathsForm) = calculate_grid_size ts := by
  unfold calculate_grid_size
  rw [flatMap_toPathsForm, isEmpty_map_toPathsForm]

theorem computeGrid_toPathsForm (sz : Option Int) (ts : List ThreadDict) :
    computeGrid sz (ts.map toPathsForm) = computeGrid sz ts := by
  cases sz with
  | some s => rfl
  | none =>
    unfold computeGrid
    rw [isEmpty_map_toPathsForm, calculate_toPathsForm]

theorem skipSegs_toPathsForm (ts : List ThreadDict) :
    skipSegs (ts.map toPathsForm) = skipSegs ts := by
  induction ts with
  | nil => rfl
  | cons t ts ih =>
    simp only [skipSegs, List.map_cons, List.flatMap_cons] at ih ⊢
    rw [color_toPathsForm, threadSegs_toPathsForm, ih]

theorem skipBBox_toPathsForm (ts : List ThreadDict) :
    skipBBox (ts.map toPathsForm) = skipBBox ts := by
  unfold skipBBox
  rw [skipSegs_toPathsForm]

theorem lineOpOf_int {cell tw : Int} {c : String} {s e : Val × Val}
    (hs : segAllInt (s, e) = true) :
    lineOpOf cell tw c s e
      = .ok (DrawOp.line (centerHP cell (valAsIntD s.1), centerHP cell (valAsIntD s.2))
          (centerHP cell (valAsIntD e.1), centerHP cell (valAsIntD e.2)) c tw) := by
  unfold lineOpOf
  rw [if_pos hs]

theorem drawThread_toPathsForm {cell tw : Int} {t : ThreadDict}
    (hall : (threadSegs t).all segAllInt = true) :
    drawThread cell tw (toPathsForm t) = drawThread cell tw t := by
  cases hpp : t.paths with
  | some ps => simp [toPathsForm, hpp]
  | none =>
    have hseg : segAllInt (t.tstart.getD d00, t.tend.getD d00) = true := by
      simp [threadSegs, hpp] at hall
      exact hall
    have hL : drawThread cell tw (toPathsForm t)
        = pathLoop cell tw (t.color.getD "black")
            [⟨t.tstart, t.tend⟩] := by
      simp [toPathsForm, hpp, drawThread]
    have hR : drawThread cell tw t
        = match lineOpOf cell tw (t.color.getD "black")
            (t.tstart.getD d00) (t.tend.getD d00) with
          | .error e => .error e
          | .ok op => if isSkipStr (t.color.getD "black") then .ok [] else .ok [op] := by
      simp [drawThread, hpp]
    rw [hL, hR, lineOpOf_int hseg]
    rcases Bool.eq_false_or_eq_true (isSkipStr (t.color.getD "black")) with hsk | hsk
    · simp [pathLoop, hsk, lineOpOf_int hseg]
    · simp [pathLoop, hsk, lineOpOf_int hseg]

theorem threadLoop_toPathsForm {cell tw : Int} :
    ∀ {ts : List ThreadDict}, threadsAllInt ts = true →
      threadLoop cell tw (ts.map toPathsForm) = threadLoop cell tw ts := by
  intro ts
  induction ts with
  | nil => intro _; rfl
  | cons t ts ih =>
    intro hall
    unfold threadsAllInt at hall
    simp only [List.flatMap_cons, List.all_append, Bool.and_eq_true] at hall
    simp only [List.map_cons]
    rw [threadLoop, threadLoop, drawThread_toPathsForm hall.1]
    have ht2 : threadsAllInt ts = true := hall.2
    rw [ih ht2]

/-- C3 (amended): a configuration of legacy flat start/end entries and the
configuration obtained by rewriting each such entry as the equivalent
one-element paths list render identically — provided every coordinate is an
int.  (With a non-int coordinate on a skip-colored legacy entry the legacy
run raises while the paths run succeeds: `c3_counterexample`.) -/
theorem c3_schema_equiv (p : Params) (ts : List ThreadDict)
    (hall : threadsAllInt ts = true) :
    create_embroidery_mesh p (some (ts.map toPathsForm))
      = create_embroidery_mesh p (some ts) := by
  unfold create_embroidery_mesh
  simp only [Option.getD_some]
  simp only [computeGrid_toPathsForm, skipBBox_toPathsForm,
    threadLoop_toPathsForm hall]

/-- Fixture for the C3 witness: a legacy red thread (0,0) → (1,1). -/
def cfgC3w : List ThreadDict :=
  [⟨some "red", none, some (Val.vint 0, Val.vint 0), some (Val.vint 1, Val.vint 1)⟩]

/-- Witness for C3: the legacy fixture and its paths-list form render
identically. -/
theorem c3_schema_equiv_witness :
    create_embroidery_mesh pC6 (some (cfgC3w.map toPathsForm))
      = create_embroidery_mesh pC6 (some cfgC3w) :=
  c3_schema_equiv pC6 cfgC3w (by decide)

/-- Fixture for the C3 counterexample: a legacy skip entry whose
coordinates are the string "3" (coercible for the skip scan, but a
TypeError in the legacy drawing branch, which computes pixel coordinates
before its skip check). -/
def cfgC3L : List ThreadDict :=
  [⟨some "skip", none, some (Val.vstr "3", Val.vstr "3"),
    some (Val.vstr "3", Val.vstr "3")⟩]

/-- The same entry in paths-list form. -/
def cfgC3P : List ThreadDict :=
  [⟨some "skip", some [⟨some (Val.vstr "3", Val.vstr "3"),
    some (Val.vstr "3", Val.vstr "3")⟩], none, none⟩]

/-- Parameters for the C3 counterexample (explicit size, so the extent
calculator is not consulted). -/
def pC3c : Params := ⟨some 5, 20, 1, 7, false, none, Val.vint 1⟩

/-- Counterexample for C3 as stated: the two configurations describe the
same colors and geometry (the paths one is exactly the map of
`toPathsForm` over the legacy one, and both coerce to the skip box
(3,3)..(3,3)), yet the legacy run raises a TypeError while the paths-list
run renders — so the outputs are not pixel-identical. -/
theorem c3_counterexample :
    cfgC3P = cfgC3L.map toPathsForm
    ∧ skipBBox cfgC3L = some (3, 3, 3, 3)
    ∧ skipBBox cfgC3P = some (3, 3, 3, 3)
    ∧ create_embroidery_mesh pC3c (some cfgC3L) = .error .typeError
    ∧ (create_embroidery_mesh pC3c (some cfgC3P)).isOk = true
    ∧ create_embroidery_mesh pC3c (some cfgC3L)
        ≠ create_embroidery_mesh pC3c (some cfgC3P) := by
  refine ⟨by decide, by decide, by decide, by decide, by decide, by decide⟩

/-! C7: permissive error handling. -/

/-- C7 (amended): a missing configuration file is rendered like an empty
thread list, an entry with every field missing is silently defaulted (a
black line from cell (0,0) to cell (0,0)), and a skip segment whose
coordinates fail integer coercion is silently dropped from the bounding-box
accumulation — but a non-integer coordinate reaching the extent calculation
or the thread drawing raises a TypeError (`c7_counterexample`), so the
pipeline is not fatal-error-free for arbitrary malformed coordinates. -/
theorem c7_error_handling :
    (∀ p, create_embroidery_mesh p none = create_embroidery_mesh p (some []))
    ∧ (∀ cell tw, drawThread cell tw ⟨none, none, none, none⟩
        = .ok [DrawOp.line (centerHP cell 0, centerHP cell 0)
            (centerHP cell 0, centerHP cell 0) "black" tw])
    ∧ (∀ bb sg, segIntCoords sg = none → skipAccum bb sg = bb) := by
  refine ⟨fun p => rfl, fun cell tw => ?_, fun bb sg h => ?_⟩
  · have hsk : isSkipStr "black" = false := by decide
    simp [drawThread, lineOpOf, segAllInt, valIsInt, d00, valAsIntD, hsk]
  · simp [skipAccum, h]

/-- Witness for C7: a skip segment with the non-numeric coordinate "x" is
dropped from the accumulation. -/
theorem c7_error_handling_witness :
    skipAccum none ((Val.vstr "x", Val.vint 0), (Val.vint 0, Val.vint 0)) = none :=
  c7_error_handling.2.2 none ((Val.vstr "x", Val.vint 0), (Val.vint 0, Val.vint 0))
    (by decide)

/-- Fixture for the C7 counterexample: a red (non-skip) thread whose start
x coordinate is the non-numeric string "x". -/
def cfgC7 : List ThreadDict :=
  [⟨some "red", none, some (Val.vstr "x", Val.vint 0), none⟩]

/-- Parameters for the C7 counterexample (auto size, so the extent
calculator runs). -/
def pC7 : Params := ⟨none, 20, 1, 7, false, none, Val.vint 1⟩

/-- Counterexample for C7 as stated: a non-numeric coordinate makes the
pipeline raise a TypeError (in `calculate_grid_size`, where Python's
`max(max_x, start[0], end[0])` compares an int with a string) instead of
completing. -/
theorem c7_counterexample :
    create_embroidery_mesh pC7 (some cfgC7) = .error .typeError := by decide
